import Mathlib

/-
Verification of the streaming vector-store rebuild client of the QNA-RAG
frontend (src/frontend/src/lib/api.ts, rebuildVectorStore and
rebuildVectorStoreWithProgress) and of the admin settings page handler that
consumes it (src/frontend/src/pages/SettingsPage.tsx, rebuildVectorStore).

The client is a thin SSE protocol reader: it issues one fetch, then reads
decoded text chunks, splits each chunk on newlines, parses every line that
starts with the marker "data: " as JSON inside a try/catch, hands every
parsed value to the caller's progress callback, and returns as soon as a
parsed value has status "completed" or "failed".  JavaScript values produced
by JSON.parse are modelled by the inductive type `Json` below, and
JSON.parse itself by the fuel-bounded parser `jsonParse` implementing the
JSON grammar (literals, strings with escapes, numbers with fraction and
exponent, arrays, objects with last-key-wins semantics).
-/

/-- A JavaScript value produced by JSON.parse.  Numbers are kept exactly as
a decimal mantissa and scale (the value is mant / 10 ^ scale), so no
floating point enters the model. -/
inductive Json where
  | null
  | bool (b : Bool)
  | num (mant : Int) (scale : Nat)
  | str (s : String)
  | arr (elems : List Json)
  | obj (fields : List (String × Json))

/-- Whitespace accepted between JSON tokens (space, tab, newline, return). -/
def isWsChar (c : Char) : Bool :=
  c = ' ' || c = '\t' || c = '\n' || c = '\r'

/-- Drop leading JSON whitespace. -/
def skipWs : List Char → List Char
  | [] => []
  | c :: r => if isWsChar c then skipWs r else c :: r

/-- Value of a hexadecimal digit. -/
def hexVal (c : Char) : Option Nat :=
  if c.isDigit then some (c.toNat - 48)
  else if 97 ≤ c.toNat ∧ c.toNat ≤ 102 then some (c.toNat - 87)
  else if 65 ≤ c.toNat ∧ c.toNat ≤ 70 then some (c.toNat - 55)
  else none

/-- Translation of a single-character JSON escape sequence. -/
def escChar (e : Char) : Option Char :=
  if e = '\"' then some '\"'
  else if e = '\\' then some '\\'
  else if e = '/' then some '/'
  else if e = 'b' then some (Char.ofNat 8)
  else if e = 'f' then some (Char.ofNat 12)
  else if e = 'n' then some '\n'
  else if e = 'r' then some '\r'
  else if e = 't' then some '\t'
  else none

/-- Body of a JSON string literal, after the opening quote: returns the
decoded characters and the remainder after the closing quote.  Raw control
characters are rejected, escapes are decoded, and a \uXXXX escape becomes
the character with that code, as in JavaScript. -/
def parseStringBody : Nat → List Char → Option (List Char × List Char)
  | 0, _ => none
  | _, [] => none
  | fuel + 1, c :: rest =>
    if c = '\"' then some ([], rest)
    else if c = '\\' then
      match rest with
      | [] => none
      | e :: rest2 =>
        if e = 'u' then
          match rest2 with
          | h1 :: h2 :: h3 :: h4 :: rest3 =>
            match hexVal h1, hexVal h2, hexVal h3, hexVal h4 with
            | some a, some b, some c3, some d =>
              (parseStringBody fuel rest3).map
                (fun r => (Char.ofNat (a * 4096 + b * 256 + c3 * 16 + d) :: r.1, r.2))
            | _, _, _, _ => none
          | _ => none
        else
          match escChar e with
          | some ec => (parseStringBody fuel rest2).map (fun r => (ec :: r.1, r.2))
          | none => none
    else if c.toNat < 32 then none
    else (parseStringBody fuel rest).map (fun r => (c :: r.1, r.2))

/-- Numeric value of a list of decimal digits. -/
def digitsToNat (ds : List Char) : Nat :=
  ds.foldl (fun n c => n * 10 + (c.toNat - 48)) 0

/-- Optional fraction part of a JSON number: digits after a dot. -/
def parseFrac : List Char → Option (List Char × List Char)
  | '.' :: r =>
    let ds := r.takeWhile Char.isDigit
    if ds.isEmpty then none else some (ds, r.drop ds.length)
  | s => some ([], s)

/-- Optional exponent part of a JSON number. -/
def parseExp : List Char → Option (Int × List Char)
  | [] => some (0, [])
  | c :: r =>
    if c = 'e' ∨ c = 'E' then
      let signed : Int × List Char :=
        match r with
        | '+' :: rr => (1, rr)
        | '-' :: rr => (-1, rr)
        | _ => (1, r)
      let ds := signed.2.takeWhile Char.isDigit
      if ds.isEmpty then none
      else some (signed.1 * Int.ofNat (digitsToNat ds), signed.2.drop ds.length)
    else some (0, c :: r)

/-- A JSON number token: optional minus, integer part with no leading zero,
optional fraction, optional exponent.  The result is (mantissa, scale) with
value mantissa / 10 ^ scale. -/
def parseNumber (s : List Char) : Option ((Int × Nat) × List Char) :=
  let signed : Bool × List Char :=
    match s with
    | '-' :: r => (true, r)
    | _ => (false, s)
  let ids := signed.2.takeWhile Char.isDigit
  if ids.isEmpty then none
  else if 1 < ids.length ∧ ids.head? = some '0' then none
  else
    match parseFrac (signed.2.drop ids.length) with
    | none => none
    | some (fds, s2) =>
      match parseExp s2 with
      | none => none
      | some (e, s3) =>
        let base : Nat := digitsToNat (ids ++ fds)
        let m0 : Int := if signed.1 then -(Int.ofNat base) else Int.ofNat base
        if 0 ≤ e then some ((m0 * (10 : Int) ^ e.toNat, fds.length), s3)
        else some ((m0, fds.length + (-e).toNat), s3)

mutual

/-- A JSON value and the unconsumed remainder.  Fuel bounds the recursion
depth; jsonParse supplies enough fuel for any input of the given length. -/
def parseValue (fuel : Nat) (input : List Char) : Option (Json × List Char) :=
  match fuel with
  | 0 => none
  | Nat.succ f =>
    match skipWs input with
    | 'n' :: 'u' :: 'l' :: 'l' :: r => some (Json.null, r)
    | 't' :: 'r' :: 'u' :: 'e' :: r => some (Json.bool true, r)
    | 'f' :: 'a' :: 'l' :: 's' :: 'e' :: r => some (Json.bool false, r)
    | '\"' :: r =>
      match parseStringBody (r.length + 1) r with
      | some (cs, r2) => some (Json.str (String.mk cs), r2)
      | none => none
    | c :: r =>
      if c = '\x7b' then
        match skipWs r with
        | d :: r2 =>
          if d = '\x7d' then some (Json.obj [], r2)
          else parseMembers f (d :: r2) []
        | [] => none
      else if c = '[' then
        match skipWs r with
        | ']' :: r2 => some (Json.arr [], r2)
        | s2 => parseElems f s2 []
      else
        match parseNumber (c :: r) with
        | some (p, r2) => some (Json.num p.1 p.2, r2)
        | none => none
    | [] => none
termination_by structural fuel

/-- The members of a JSON object, after the opening brace (nonempty case). -/
def parseMembers (fuel : Nat) (input : List Char) (acc : List (String × Json)) :
    Option (Json × List Char) :=
  match fuel with
  | 0 => none
  | Nat.succ f =>
    match skipWs input with
    | '\"' :: r =>
      match parseStringBody (r.length + 1) r with
      | none => none
      | some (key, r2) =>
        match skipWs r2 with
        | ':' :: r3 =>
          match parseValue f r3 with
          | none => none
          | some (v, r4) =>
            match skipWs r4 with
            | ',' :: r5 => parseMembers f r5 (acc ++ [(String.mk key, v)])
            | d :: r5 =>
              if d = '\x7d' then some (Json.obj (acc ++ [(String.mk key, v)]), r5)
              else none
            | [] => none
        | _ => none
    | _ => none
termination_by structural fuel

/-- The elements of a JSON array, after the opening bracket (nonempty case). -/
def parseElems (fuel : Nat) (input : List Char) (acc : List Json) :
    Option (Json × List Char) :=
  match fuel with
  | 0 => none
  | Nat.succ f =>
    match parseValue f input with
    | none => none
    | some (v, r) =>
      match skipWs r with
      | ',' :: r2 => parseElems f r2 (acc ++ [v])
      | ']' :: r2 => some (Json.arr (acc ++ [v]), r2)
      | _ => none
termination_by structural fuel

end

/-- Model of JavaScript JSON.parse: parse one value, allow trailing
whitespace, reject any other trailing characters. -/
def jsonParse (s : String) : Option Json :=
  match parseValue (2 * s.data.length + 4) s.data with
  | some (j, rest) => if (skipWs rest).isEmpty then some j else none
  | none => none

/-
The SSE reading loop of rebuildVectorStoreWithProgress (api.ts lines
243-267): each decoded chunk is split on newlines independently (no partial
line is buffered across reads), each line starting with "data: " has its
remainder JSON-parsed inside a try/catch, every parsed value is handed to
the progress callback, and a parsed value whose status is "completed" or
"failed" makes the function return at once.
-/

/-- JavaScript String.prototype.split with separator newline, on the
character list of a chunk.  "a\nb" gives [a, b], a trailing newline yields a
final empty string, and the empty chunk yields one empty string. -/
def splitNl : List Char → List (List Char)
  | [] => [[]]
  | c :: rest =>
    match splitNl rest with
    | [] => [[c]]
    | t :: ts => if c = '\n' then [] :: t :: ts else (c :: t) :: ts

/-- Chunk splitting at the String level: chunk.split with a newline. -/
def strSplitNl (s : String) : List String :=
  (splitNl s.data).map String.mk

/-- The character list of the SSE marker "data: ". -/
def dataMarker : List Char := "data: ".data

/-- line.startsWith with the marker "data: ". -/
def isDataLine (l : String) : Bool :=
  l.data.take 6 == dataMarker

/-- line.slice at index 6: the JSON payload of a data line. -/
def dataPayload (l : String) : String :=
  String.mk (l.data.drop 6)

/-- The parsed event carried by one line: JSON.parse of the payload when the
line starts with "data: ", nothing otherwise (non-data lines are ignored,
and a payload JSON.parse throws on is caught and skipped). -/
def lineEvent (l : String) : Option Json :=
  if isDataLine l then jsonParse (dataPayload l) else none

/-- JavaScript property read v[k] on a parsed JSON value: reading a
property of null throws a TypeError (the error branch); an object yields
its last binding for the key, as JSON.parse keeps the last duplicate; any
other value yields undefined (none). -/
def jsGetField (j : Json) (k : String) : Except Unit (Option Json) :=
  match j with
  | Json.null => Except.error ()
  | Json.obj fs => Except.ok (fs.foldl (fun acc p => if p.1 == k then some p.2 else acc) none)
  | _ => Except.ok none

/-- JavaScript strict equality of a possibly-undefined property value with
a string literal: true exactly for the equal string. -/
def jsEqStr (v : Option Json) (s : String) : Bool :=
  match v with
  | some (Json.str t) => t == s
  | _ => false

/-- The value returned by rebuildVectorStoreWithProgress: success flag and
the terminal data payload. -/
structure RebuildOutcome where
  success : Bool
  data : Json

/-- The data payload synthesized when the stream ends with no terminal
event (api.ts line 272). -/
def fallbackData : Json := Json.obj [("status", Json.str "completed")]

/-- The outcome synthesized when the stream ends with no terminal event. -/
def fallbackOutcome : RebuildOutcome := ⟨true, fallbackData⟩

/-- One iteration of the inner for-line loop, for a callback modelled by
the set of events it throws on: nothing happens on a non-data line or an
unparseable payload; otherwise the callback receives the event, and when it
does not throw, a status of "completed" or "failed" (read off the event,
where reading a property of null throws and is caught) produces the
returned outcome. -/
def procLine (cbThrows : Json → Bool) (l : String) : Option (Json × Option RebuildOutcome) :=
  match lineEvent l with
  | none => none
  | some j =>
    if cbThrows j then some (j, none)
    else
      match jsGetField j "status" with
      | Except.error _ => some (j, none)
      | Except.ok st =>
        if jsEqStr st "completed" || jsEqStr st "failed" then
          some (j, some ⟨jsEqStr st "completed", j⟩)
        else some (j, none)

/-- The for-line loop over a list of lines: the list of events delivered to
the callback in order, and the outcome returned early if a terminal event
was reached. -/
def procLines (cbThrows : Json → Bool) : List String → List Json × Option RebuildOutcome
  | [] => ([], none)
  | l :: rest =>
    match procLine cbThrows l with
    | none => procLines cbThrows rest
    | some (j, none) =>
      let r := procLines cbThrows rest
      (j :: r.1, r.2)
    | some (j, some o) => ([j], some o)

/-- The while-read loop over the decoded chunks of the response body: each
chunk is split on newlines on its own and its lines processed, stopping at
the first terminal event. -/
def procChunks (cbThrows : Json → Bool) : List String → List Json × Option RebuildOutcome
  | [] => ([], none)
  | c :: cs =>
    let r := procLines cbThrows (strSplitNl c)
    match r.2 with
    | some o => (r.1, some o)
    | none =>
      let r2 := procChunks cbThrows cs
      (r.1 ++ r2.1, r2.2)

/-- The fetch response as the client observes it: HTTP status, statusText,
whether a readable body is present, and the decoded text chunks the reader
yields before reporting done. -/
structure FetchResponse where
  status : Nat
  statusText : String
  hasBody : Bool
  chunks : List String

/-- response.ok of the fetch API: status in the range 200 to 299. -/
def respOk (r : FetchResponse) : Bool :=
  decide (200 ≤ r.status) && decide (r.status < 300)

/-- A thrown JavaScript Error, reduced to its message. -/
structure JsError where
  message : String

/-- Model of rebuildVectorStoreWithProgress (api.ts lines 203-273) given
the fetch response: a non-ok response or a missing body rejects with the
corresponding Error before any chunk is read (so the delivered-event list
is empty); otherwise the chunks are processed and, when no terminal event
arrives before the stream ends, the completed outcome is synthesized.  The
first component lists the events delivered to the progress callback, in
order. -/
def rebuildVectorStoreWithProgress (cbThrows : Json → Bool) (resp : FetchResponse) :
    List Json × Except JsError RebuildOutcome :=
  if respOk resp = false then
    ([], Except.error ⟨"Rebuild failed: " ++ resp.statusText⟩)
  else if resp.hasBody = false then
    ([], Except.error ⟨"No response body"⟩)
  else
    let r := procChunks cbThrows resp.chunks
    (r.1, Except.ok (r.2.getD fallbackOutcome))

/-- One invocation of the operation against a transport that answers
successive requests with successive responses: the client performs exactly
one fetch, so it consumes exactly the head response and leaves the rest
untouched; an empty transport is a network failure of that single fetch. -/
def rebuildInvoke (cbThrows : Json → Bool) (transport : List FetchResponse) :
    (List Json × Except JsError RebuildOutcome) × List FetchResponse :=
  match transport with
  | [] => (([], Except.error ⟨"Failed to fetch"⟩), [])
  | r :: rest => (rebuildVectorStoreWithProgress cbThrows r, rest)

/-
Query-string construction of rebuildVectorStore (api.ts lines 193-201) and
rebuildVectorStoreWithProgress (lines 215-220).  Both build a URLSearchParams
object, appending user_filter, document_filter and batch_size in that order,
each only when JavaScript finds the field truthy (so a missing field, an
empty string, and a zero batch size are all skipped), and attach the
serialized params after a question mark only when the serialization is
nonempty.
-/

/-- The optional filters accepted by both rebuild entry points. -/
structure RebuildFilters where
  user_filter : Option String
  document_filter : Option String
  batch_size : Option Nat

/-- JavaScript truthiness of an optional string field: present and nonempty. -/
def strFieldTruthy : Option String → Bool
  | some s => !(s == "")
  | none => false

/-- JavaScript truthiness of an optional numeric field: present and nonzero. -/
def natFieldTruthy : Option Nat → Bool
  | some n => !(n == 0)
  | none => false

/-- UTF-8 bytes of one character, for percent-encoding. -/
def utf8Bytes (c : Char) : List Nat :=
  let n := c.toNat
  if n < 128 then [n]
  else if n < 2048 then [192 + n / 64, 128 + n % 64]
  else if n < 65536 then [224 + n / 4096, 128 + (n / 64) % 64, 128 + n % 64]
  else [240 + n / 262144, 128 + (n / 4096) % 64, 128 + (n / 64) % 64, 128 + n % 64]

/-- Uppercase hexadecimal digit. -/
def hexDigitUpper (n : Nat) : Char :=
  if n < 10 then Char.ofNat (48 + n) else Char.ofNat (55 + n)

/-- Percent-encoding of one byte. -/
def pctByte (b : Nat) : String :=
  String.mk ['%', hexDigitUpper (b / 16), hexDigitUpper (b % 16)]

/-- Characters the URLSearchParams serializer leaves as they are. -/
def isFormSafe (c : Char) : Bool :=
  c.isAlpha || c.isDigit || c == '*' || c == '-' || c == '.' || c == '_'

/-- The application/x-www-form-urlencoded serialization of one string, as
URLSearchParams.toString applies it: safe characters kept, space as a plus,
everything else percent-encoded bytewise. -/
def formEncode (s : String) : String :=
  s.data.foldl
    (fun acc c =>
      if isFormSafe c then acc ++ String.mk [c]
      else if c == ' ' then acc ++ "+"
      else acc ++ String.join ((utf8Bytes c).map pctByte))
    ""

/-- URLSearchParams.toString on the appended key-value pairs. -/
def searchParamsToString (ps : List (String × String)) : String :=
  String.intercalate "&" (ps.map (fun p => formEncode p.1 ++ "=" ++ formEncode p.2))

/-- The key-value pairs rebuildVectorStore appends (api.ts lines 194-197). -/
def rebuildParams (f : RebuildFilters) : List (String × String) :=
  (if strFieldTruthy f.user_filter then [("user_filter", f.user_filter.getD "")] else [])
    ++ (if strFieldTruthy f.document_filter then
          [("document_filter", f.document_filter.getD "")] else [])
    ++ (if natFieldTruthy f.batch_size then
          [("batch_size", Nat.repr (f.batch_size.getD 0))] else [])

/-- The request URL of rebuildVectorStore (api.ts line 199). -/
def rebuildUrl (f : RebuildFilters) : String :=
  let q := searchParamsToString (rebuildParams f)
  "/rag/admin/vector/rebuild" ++ (if q == "" then "" else "?" ++ q)

/-- The key-value pairs rebuildVectorStoreWithProgress appends (api.ts
lines 215-218), duplicated from the non-streaming entry point exactly as
the source duplicates them. -/
def rebuildStreamParams (f : RebuildFilters) : List (String × String) :=
  (if strFieldTruthy f.user_filter then [("user_filter", f.user_filter.getD "")] else [])
    ++ (if strFieldTruthy f.document_filter then
          [("document_filter", f.document_filter.getD "")] else [])
    ++ (if natFieldTruthy f.batch_size then
          [("batch_size", Nat.repr (f.batch_size.getD 0))] else [])

/-- The request URL of rebuildVectorStoreWithProgress (api.ts line 220). -/
def rebuildStreamUrl (f : RebuildFilters) : String :=
  let q := searchParamsToString (rebuildStreamParams f)
  "/rag/admin/vector/rebuild/stream" ++ (if q == "" then "" else "?" ++ q)

/-
The settings page handler (SettingsPage.tsx, rebuildVectorStore): it invokes
the streaming client with no filters and a state-updating callback that does
not throw; on a successful outcome it shows the fixed completion toast; on
an unsuccessful outcome it throws new Error(result.data?.error || 'Rebuild
failed'), which its own catch block turns into a destructive toast whose
description is error.message || 'Failed to rebuild vector store'; a rejection
of the client (transport error) reaches the same catch block.
-/

/-- Optional chaining read data?.k: none when the value is null or has no
such property, never a thrown error. -/
def jsGetFieldOpt (j : Json) (k : String) : Option Json :=
  match j with
  | Json.obj fs => fs.foldl (fun acc p => if p.1 == k then some p.2 else acc) none
  | _ => none

/-- JavaScript truthiness of a JSON value. -/
def jsTruthy : Json → Bool
  | Json.null => false
  | Json.bool b => b
  | Json.num m _ => !(m == 0)
  | Json.str s => !(s == "")
  | Json.arr _ => true
  | Json.obj _ => true

/-- JavaScript String conversion of a JSON value, as new Error(v) applies it
to a non-string argument.  Number formatting and nested arrays are
approximated (the settings page only ever reaches this conversion through
an error field, which the observed events carry as a string when at all). -/
def jsValueToString : Json → String
  | Json.null => "null"
  | Json.bool b => if b then "true" else "false"
  | Json.num m s => if s == 0 then toString m else toString m ++ "e-" ++ Nat.repr s
  | Json.str s => s
  | Json.arr _ => ""
  | Json.obj _ => "[object Object]"

/-- JavaScript a || b for string a: b when a is empty, a otherwise. -/
def jsOrString (a b : String) : String :=
  if a == "" then b else a

/-- The message of the Error thrown on an unsuccessful outcome
(SettingsPage.tsx line 104): result.data?.error || 'Rebuild failed'. -/
def rebuildFailureMessage (data : Json) : String :=
  match jsGetFieldOpt data "error" with
  | some v => if jsTruthy v then jsValueToString v else "Rebuild failed"
  | none => "Rebuild failed"

/-- A toast notification raised by the settings page. -/
structure Toast where
  title : String
  description : String
  destructive : Bool

/-- The callback of a caller whose progress callback never throws (the
settings page state updater is one). -/
def noThrowCb : Json → Bool := fun _ => false

/-- The toast the settings page handler raises for a given fetch response:
the completion toast on a successful outcome, and otherwise the destructive
error toast built in the catch block from the thrown message. -/
def settingsRebuildToast (resp : FetchResponse) : Toast :=
  match rebuildVectorStoreWithProgress noThrowCb resp with
  | (_, Except.error e) =>
    ⟨"Error", jsOrString e.message "Failed to rebuild vector store", true⟩
  | (_, Except.ok out) =>
    if out.success then
      ⟨"Rebuild Completed", "Vector store rebuild completed successfully!", false⟩
    else
      ⟨"Error", jsOrString (rebuildFailureMessage out.data) "Failed to rebuild vector store", true⟩

/-
Derived notions the statements below are phrased with.
-/

/-- An event the loop recognizes as terminal: its status property reads
without a TypeError and is the string "completed" or "failed". -/
def eventIsTerminal (j : Json) : Bool :=
  match jsGetField j "status" with
  | Except.ok st => jsEqStr st "completed" || jsEqStr st "failed"
  | Except.error _ => false

/-- The success flag the loop computes from an event: its status reads and
equals "completed". -/
def eventSuccess (j : Json) : Bool :=
  match jsGetField j "status" with
  | Except.ok st => jsEqStr st "completed"
  | Except.error _ => false

/-- A line that actually ends the loop under a given callback: it carries an
event, the callback returns without throwing on it, and the event is
terminal. -/
def lineTerminal (cbThrows : Json → Bool) (l : String) : Bool :=
  match lineEvent l with
  | some j => !(cbThrows j) && eventIsTerminal j
  | none => false

/-- The events carried by a list of lines, in order. -/
def parsedEvents (lines : List String) : List Json :=
  lines.filterMap lineEvent

/-- All lines produced by splitting each chunk on newlines, in order. -/
def chunkLines : List String → List String
  | [] => []
  | c :: cs => strSplitNl c ++ chunkLines cs

/-- The event prefix a run delivers: every event up to and including the
first terminal one. -/
def takeThroughTerminal : List Json → List Json
  | [] => []
  | j :: rest => if eventIsTerminal j then [j] else j :: takeThroughTerminal rest

/-- The progress property of an event, as mantissa and scale. -/
def getProgress (j : Json) : Option (Int × Nat) :=
  match jsGetFieldOpt j "progress" with
  | some (Json.num m s) => some (m, s)
  | _ => none

/-- Order on decimal mantissa-scale pairs: a1 / 10 ^ s1 is at most
a2 / 10 ^ s2. -/
def numLe (a b : Int × Nat) : Bool :=
  decide (a.1 * (10 : Int) ^ b.2 ≤ b.1 * (10 : Int) ^ a.2)

/-- Progress comparison between two events, trivially true when either has
no numeric progress. -/
def progLe (a b : Json) : Bool :=
  match getProgress a, getProgress b with
  | some x, some y => numLe x y
  | _, _ => true

/-
Supporting lemmas about the reading loop.
-/

theorem procLine_eq_none (cbThrows : Json → Bool) (l : String)
    (h : lineEvent l = none) : procLine cbThrows l = none := by
  unfold procLine
  rw [h]

theorem procLine_of_event (cbThrows : Json → Bool) (l : String) (j : Json)
    (h : lineEvent l = some j) :
    procLine cbThrows l =
      some (j, if !(cbThrows j) && eventIsTerminal j then some ⟨eventSuccess j, j⟩ else none) := by
  unfold procLine eventIsTerminal eventSuccess
  rw [h]
  by_cases hc : cbThrows j
  · simp [hc]
  · simp only [hc, Bool.not_false, Bool.true_and, if_false, Bool.false_eq_true]
    cases hs : jsGetField j "status" with
    | error e => simp
    | ok st =>
      by_cases ht : (jsEqStr st "completed" || jsEqStr st "failed") = true
      · simp [ht]
      · simp [ht]

theorem procLine_inv_event (cbThrows : Json → Bool) (l : String) (j : Json)
    (o : Option RebuildOutcome) (h : procLine cbThrows l = some (j, o)) :
    lineEvent l = some j := by
  unfold procLine at h
  cases he : lineEvent l with
  | none => rw [he] at h; exact absurd h (by simp)
  | some j2 =>
    rw [he] at h
    by_cases hc : cbThrows j2
    · simp [hc] at h
      rw [h.1]
    · simp only [hc, if_false, Bool.false_eq_true] at h
      cases hs : jsGetField j2 "status" with
      | error e => rw [hs] at h; simp at h; rw [h.1]
      | ok st =>
        rw [hs] at h
        by_cases ht : (jsEqStr st "completed" || jsEqStr st "failed") = true
        · simp [ht] at h; rw [h.1]
        · simp [ht] at h; rw [h.1]

theorem procLines_append_some (cbThrows : Json → Bool) (xs ys : List String)
    (o : RebuildOutcome) (h : (procLines cbThrows xs).2 = some o) :
    procLines cbThrows (xs ++ ys) = procLines cbThrows xs := by
  induction xs with
  | nil => simp [procLines] at h
  | cons l xs ih =>
    simp only [List.cons_append, procLines] at h ⊢
    cases hpl : procLine cbThrows l with
    | none =>
      rw [hpl] at h
      exact ih h
    | some p =>
      rw [hpl] at h
      cases p with
      | mk j po =>
        cases po with
        | none =>
          simp only [List.append_eq] at h ⊢
          rw [ih h]
        | some o2 => simp

theorem procLines_append_none (cbThrows : Json → Bool) (xs ys : List String)
    (h : (procLines cbThrows xs).2 = none) :
    procLines cbThrows (xs ++ ys) =
      ((procLines cbThrows xs).1 ++ (procLines cbThrows ys).1,
        (procLines cbThrows ys).2) := by
  induction xs with
  | nil => simp [procLines]
  | cons l xs ih =>
    simp only [List.cons_append, procLines] at h ⊢
    cases hpl : procLine cbThrows l with
    | none =>
      rw [hpl] at h
      exact ih h
    | some p =>
      rw [hpl] at h
      cases p with
      | mk j po =>
        cases po with
        | none =>
          simp only [List.append_eq] at h ⊢
          rw [ih h]
          simp
        | some o2 => simp at h

theorem procLines_nonterminal (cbThrows : Json → Bool) (lines : List String)
    (h : ∀ l ∈ lines, lineTerminal cbThrows l = false) :
    procLines cbThrows lines = (parsedEvents lines, none) := by
  induction lines with
  | nil => simp [procLines, parsedEvents]
  | cons l rest ih =>
    have hrest : ∀ x ∈ rest, lineTerminal cbThrows x = false :=
      fun x hx => h x (List.mem_cons_of_mem l hx)
    cases he : lineEvent l with
    | none =>
      have h1 : procLine cbThrows l = none := procLine_eq_none cbThrows l he
      simp only [procLines, h1]
      rw [ih hrest]
      have h2 : parsedEvents (l :: rest) = parsedEvents rest := by
        simp [parsedEvents, List.filterMap_cons, he]
      rw [h2]
    | some j =>
      have hl2 : (!cbThrows j && eventIsTerminal j) = false := by
        have h3 := h l (List.mem_cons_self l rest)
        unfold lineTerminal at h3
        rw [he] at h3
        exact h3
      have h1 : procLine cbThrows l = some (j, none) := by
        rw [procLine_of_event cbThrows l j he, hl2]
        simp
      simp only [procLines, h1]
      rw [ih hrest]
      have h2 : parsedEvents (l :: rest) = j :: parsedEvents rest := by
        simp [parsedEvents, List.filterMap_cons, he]
      rw [h2]

theorem procLines_delivered (lines : List String) :
    (procLines noThrowCb lines).1 = takeThroughTerminal (parsedEvents lines) := by
  induction lines with
  | nil => simp [procLines, parsedEvents, takeThroughTerminal]
  | cons l rest ih =>
    cases he : lineEvent l with
    | none =>
      have h1 : procLine noThrowCb l = none := procLine_eq_none noThrowCb l he
      simp only [procLines, h1]
      rw [ih]
      have h2 : parsedEvents (l :: rest) = parsedEvents rest := by
        simp [parsedEvents, List.filterMap_cons, he]
      rw [h2]
    | some j =>
      have hnc : noThrowCb j = false := rfl
      have h2 : parsedEvents (l :: rest) = j :: parsedEvents rest := by
        simp [parsedEvents, List.filterMap_cons, he]
      cases ht : eventIsTerminal j with
      | true =>
        have h1 : procLine noThrowCb l = some (j, some ⟨eventSuccess j, j⟩) := by
          rw [procLine_of_event noThrowCb l j he, hnc, ht]
          simp
        simp only [procLines, h1]
        rw [h2]
        simp [takeThroughTerminal, ht]
      | false =>
        have h1 : procLine noThrowCb l = some (j, none) := by
          rw [procLine_of_event noThrowCb l j he, hnc, ht]
          simp
        simp only [procLines, h1]
        rw [h2]
        simp only [takeThroughTerminal, ht, if_false, Bool.false_eq_true]
        rw [ih]

theorem procLines_first_terminal (cbThrows : Json → Bool) (pre post : List String)
    (t : String) (j : Json)
    (hpre : ∀ l ∈ pre, lineTerminal cbThrows l = false)
    (hline : lineEvent t = some j)
    (hterm : eventIsTerminal j = true)
    (hcb : cbThrows j = false) :
    procLines cbThrows (pre ++ t :: post) =
      (parsedEvents pre ++ [j], some ⟨eventSuccess j, j⟩) := by
  have hpre2 := procLines_nonterminal cbThrows pre hpre
  have hstep : procLines cbThrows (t :: post) = ([j], some ⟨eventSuccess j, j⟩) := by
    have h1 : procLine cbThrows t = some (j, some ⟨eventSuccess j, j⟩) := by
      rw [procLine_of_event cbThrows t j hline, hcb, hterm]
      simp
    simp only [procLines, h1]
  have h4 := procLines_append_none cbThrows pre (t :: post) (by rw [hpre2])
  rw [h4, hpre2, hstep]

theorem procChunks_eq_procLines (cbThrows : Json → Bool) (chunks : List String) :
    procChunks cbThrows chunks =
      ((procLines cbThrows (chunkLines chunks)).1,
        (procLines cbThrows (chunkLines chunks)).2) := by
  induction chunks with
  | nil => simp [procChunks, chunkLines, procLines]
  | cons c cs ih =>
    simp only [procChunks, chunkLines]
    cases hr : (procLines cbThrows (strSplitNl c)).2 with
    | some o =>
      rw [procLines_append_some cbThrows (strSplitNl c) (chunkLines cs) o hr, hr]
    | none =>
      rw [procLines_append_none cbThrows (strSplitNl c) (chunkLines cs) hr]
      simp only
      rw [ih]

theorem procLines_skip (cbThrows : Json → Bool) (xs ys : List String)
    (h : ∀ l ∈ xs, lineEvent l = none) :
    procLines cbThrows (xs ++ ys) = procLines cbThrows ys := by
  induction xs with
  | nil => rfl
  | cons l xs ih =>
    have hl : lineEvent l = none := h l (List.mem_cons_self l xs)
    have hxs : ∀ x ∈ xs, lineEvent x = none :=
      fun x hx => h x (List.mem_cons_of_mem l hx)
    simp only [List.cons_append, procLines, procLine_eq_none cbThrows l hl]
    exact ih hxs

theorem procLines_congr_append (cbThrows : Json → Bool) (xs ys zs : List String)
    (h : procLines cbThrows ys = procLines cbThrows zs) :
    procLines cbThrows (xs ++ ys) = procLines cbThrows (xs ++ zs) := by
  cases h2 : (procLines cbThrows xs).2 with
  | some o =>
    rw [procLines_append_some cbThrows xs ys o h2,
      procLines_append_some cbThrows xs zs o h2]
  | none =>
    rw [procLines_append_none cbThrows xs ys h2,
      procLines_append_none cbThrows xs zs h2, h]

theorem chunkLines_append (A B : List String) :
    chunkLines (A ++ B) = chunkLines A ++ chunkLines B := by
  induction A with
  | nil => simp [chunkLines]
  | cons c cs ih => simp [chunkLines, ih]

theorem rebuildRun_ok (cbThrows : Json → Bool) (resp : FetchResponse)
    (hok : respOk resp = true) (hbody : resp.hasBody = true) :
    rebuildVectorStoreWithProgress cbThrows resp =
      ((procLines cbThrows (chunkLines resp.chunks)).1,
        Except.ok ((procLines cbThrows (chunkLines resp.chunks)).2.getD fallbackOutcome)) := by
  simp [rebuildVectorStoreWithProgress, hok, hbody, procChunks_eq_procLines]

theorem rebuildRun_chunks_congr (cbThrows : Json → Bool) (st : Nat) (sx : String)
    (hb : Bool) (C D : List String) (h : procChunks cbThrows C = procChunks cbThrows D) :
    rebuildVectorStoreWithProgress cbThrows ⟨st, sx, hb, C⟩ =
      rebuildVectorStoreWithProgress cbThrows ⟨st, sx, hb, D⟩ := by
  simp only [rebuildVectorStoreWithProgress, respOk]
  rw [h]

theorem rebuildRun_first_terminal (cbThrows : Json → Bool) (resp : FetchResponse)
    (pre post : List String) (t : String) (j : Json)
    (hok : respOk resp = true) (hbody : resp.hasBody = true)
    (hsplit : chunkLines resp.chunks = pre ++ t :: post)
    (hpre : ∀ l ∈ pre, lineTerminal cbThrows l = false)
    (hline : lineEvent t = some j)
    (hterm : eventIsTerminal j = true)
    (hcb : cbThrows j = false) :
    rebuildVectorStoreWithProgress cbThrows resp =
      (parsedEvents pre ++ [j], Except.ok ⟨eventSuccess j, j⟩) := by
  rw [rebuildRun_ok cbThrows resp hok hbody, hsplit,
    procLines_first_terminal cbThrows pre post t j hpre hline hterm hcb]
  rfl

theorem takeThroughTerminal_head (l : List Json) :
    (takeThroughTerminal l).head? = l.head? := by
  cases l with
  | nil => rfl
  | cons j rest =>
    simp only [takeThroughTerminal]
    by_cases h : eventIsTerminal j = true
    · simp [h]
    · simp [h]

theorem chain_takeThroughTerminal (R : Json → Json → Prop) (l : List Json)
    (h : List.Chain' R l) : List.Chain' R (takeThroughTerminal l) := by
  induction l with
  | nil => simp [takeThroughTerminal]
  | cons j rest ih =>
    rw [List.chain'_cons'] at h
    simp only [takeThroughTerminal]
    by_cases ht : eventIsTerminal j = true
    · simp [ht]
    · simp only [ht, if_false, Bool.false_eq_true]
      rw [List.chain'_cons']
      constructor
      · intro y hy
        rw [takeThroughTerminal_head] at hy
        exact h.1 y hy
      · exact ih h.2

/-
The claims.
-/

/-- C1: for every event stream, when the client parses its first event whose
status is "completed" or "failed" it stops reading and returns an outcome
whose success flag is the status-equals-completed comparison and whose data
is that terminal event, having delivered exactly the earlier events and the
terminal one; in particular a stream ending in a completed event yields a
successful outcome. -/
theorem rebuild_stream_first_terminal (resp : FetchResponse)
    (pre post : List String) (t : String) (j : Json)
    (hok : respOk resp = true) (hbody : resp.hasBody = true)
    (hsplit : chunkLines resp.chunks = pre ++ t :: post)
    (hpre : ∀ l ∈ pre, lineTerminal noThrowCb l = false)
    (hline : lineEvent t = some j)
    (hterm : eventIsTerminal j = true) :
    rebuildVectorStoreWithProgress noThrowCb resp =
      (parsedEvents pre ++ [j], Except.ok ⟨eventSuccess j, j⟩) :=
  rebuildRun_first_terminal noThrowCb resp pre post t j hok hbody hsplit hpre hline
    hterm rfl

theorem rebuild_stream_first_terminal_witness :
    rebuildVectorStoreWithProgress noThrowCb
        ⟨200, "OK", true,
          ["data: \x7b\"status\": \"processing\", \"progress\": 10\x7d\n",
           "data: \x7b\"status\": \"completed\", \"progress\": 100\x7d\n"]⟩ =
      ([Json.obj [("status", Json.str "processing"), ("progress", Json.num 10 0)],
        Json.obj [("status", Json.str "completed"), ("progress", Json.num 100 0)]],
       Except.ok
         ⟨true, Json.obj [("status", Json.str "completed"), ("progress", Json.num 100 0)]⟩) :=
  (rebuild_stream_first_terminal
    ⟨200, "OK", true,
      ["data: \x7b\"status\": \"processing\", \"progress\": 10\x7d\n",
       "data: \x7b\"status\": \"completed\", \"progress\": 100\x7d\n"]⟩
    ["data: \x7b\"status\": \"processing\", \"progress\": 10\x7d", ""] [""]
    "data: \x7b\"status\": \"completed\", \"progress\": 100\x7d"
    (Json.obj [("status", Json.str "completed"), ("progress", Json.num 100 0)])
    rfl rfl rfl (by decide) rfl rfl).trans rfl

/-- C2: a malformed data line, wherever it is interleaved, is skipped by the
catch around JSON.parse without aborting the read loop, so the run is the
same as the run on the stream with that line removed. -/
theorem rebuild_stream_malformed_line_removed (cbThrows : Json → Bool)
    (st : Nat) (sx : String) (hb : Bool) (A B : List String) (m : String)
    (hm1 : isDataLine m = true)
    (hm2 : jsonParse (dataPayload m) = none)
    (hm3 : strSplitNl m = [m]) :
    rebuildVectorStoreWithProgress cbThrows ⟨st, sx, hb, A ++ m :: B⟩ =
      rebuildVectorStoreWithProgress cbThrows ⟨st, sx, hb, A ++ B⟩ := by
  apply rebuildRun_chunks_congr
  rw [procChunks_eq_procLines, procChunks_eq_procLines]
  have hev : lineEvent m = none := by
    simp [lineEvent, hm1, hm2]
  have e1 : chunkLines (A ++ m :: B) = chunkLines A ++ ([m] ++ chunkLines B) := by
    rw [chunkLines_append]
    simp [chunkLines, hm3]
  have e2 : chunkLines (A ++ B) = chunkLines A ++ chunkLines B := chunkLines_append A B
  rw [e1, e2]
  have inner : procLines cbThrows ([m] ++ chunkLines B) = procLines cbThrows (chunkLines B) :=
    procLines_skip cbThrows [m] (chunkLines B)
      (by
        intro l hl
        simp at hl
        rw [hl]
        exact hev)
  rw [procLines_congr_append cbThrows (chunkLines A) _ _ inner]

theorem rebuild_stream_malformed_line_removed_witness :
    rebuildVectorStoreWithProgress noThrowCb
        ⟨200, "OK", true,
          ["data: \x7b\"status\": \"processing\", \"progress\": 10\x7d\n",
           "data: \x7bnot json",
           "data: \x7b\"status\": \"completed\", \"progress\": 100\x7d\n"]⟩ =
      rebuildVectorStoreWithProgress noThrowCb
        ⟨200, "OK", true,
          ["data: \x7b\"status\": \"processing\", \"progress\": 10\x7d\n",
           "data: \x7b\"status\": \"completed\", \"progress\": 100\x7d\n"]⟩ :=
  rebuild_stream_malformed_line_removed noThrowCb 200 "OK" true
    ["data: \x7b\"status\": \"processing\", \"progress\": 10\x7d\n"]
    ["data: \x7b\"status\": \"completed\", \"progress\": 100\x7d\n"]
    "data: \x7bnot json" rfl rfl rfl

/-- C3: a non-2xx response or a response without a readable body makes the
operation reject with a thrown Error before any event is delivered to the
progress callback. -/
theorem rebuild_stream_transport_error_no_callback (cbThrows : Json → Bool)
    (resp : FetchResponse)
    (h : respOk resp = false ∨ resp.hasBody = false) :
    (rebuildVectorStoreWithProgress cbThrows resp).1 = []
    ∧ ∃ m : String,
        (rebuildVectorStoreWithProgress cbThrows resp).2 = Except.error ⟨m⟩ := by
  by_cases h1 : respOk resp = false
  · constructor
    · simp [rebuildVectorStoreWithProgress, h1]
    · exact ⟨"Rebuild failed: " ++ resp.statusText,
        by simp [rebuildVectorStoreWithProgress, h1]⟩
  · have h2 : resp.hasBody = false := by
      cases h with
      | inl hh => exact absurd hh h1
      | inr hh => exact hh
    constructor
    · simp [rebuildVectorStoreWithProgress, h1, h2]
    · exact ⟨"No response body", by simp [rebuildVectorStoreWithProgress, h1, h2]⟩

theorem rebuild_stream_transport_error_no_callback_witness :
    (rebuildVectorStoreWithProgress noThrowCb
        ⟨500, "Internal Server Error", true,
          ["data: \x7b\"status\": \"processing\", \"progress\": 10\x7d\n"]⟩).1 = []
    ∧ ∃ m : String,
        (rebuildVectorStoreWithProgress noThrowCb
            ⟨500, "Internal Server Error", true,
              ["data: \x7b\"status\": \"processing\", \"progress\": 10\x7d\n"]⟩).2 =
          Except.error ⟨m⟩ :=
  rebuild_stream_transport_error_no_callback noThrowCb
    ⟨500, "Internal Server Error", true,
      ["data: \x7b\"status\": \"processing\", \"progress\": 10\x7d\n"]⟩
    (Or.inl rfl)

/-- C4: a stream that ends without any terminal event makes the client
synthesize and return the successful outcome with data status completed,
rather than raising any truncation error. -/
theorem rebuild_stream_truncated_fallback (resp : FetchResponse)
    (hok : respOk resp = true) (hbody : resp.hasBody = true)
    (hnt : ∀ l ∈ chunkLines resp.chunks, lineTerminal noThrowCb l = false) :
    (rebuildVectorStoreWithProgress noThrowCb resp).2 =
      Except.ok ⟨true, Json.obj [("status", Json.str "completed")]⟩ := by
  rw [rebuildRun_ok noThrowCb resp hok hbody,
    procLines_nonterminal noThrowCb (chunkLines resp.chunks) hnt]
  rfl

theorem rebuild_stream_truncated_fallback_witness :
    (rebuildVectorStoreWithProgress noThrowCb
        ⟨200, "OK", true,
          ["data: \x7b\"status\": \"processing\", \"progress\": 40\x7d\n"]⟩).2 =
      Except.ok ⟨true, Json.obj [("status", Json.str "completed")]⟩ :=
  rebuild_stream_truncated_fallback
    ⟨200, "OK", true, ["data: \x7b\"status\": \"processing\", \"progress\": 40\x7d\n"]⟩
    rfl rfl (by decide)

/-- C5 (counterexample): the claim that the settings page surfaces the
server-provided message of a failed event is false on the code: for the
concrete stream ending in a failed event with message "X", the outcome is
unsuccessful but the toast description is the generic "Rebuild failed"
built from the absent error field, not "X". -/
theorem settings_failed_message_not_surfaced :
    (rebuildVectorStoreWithProgress noThrowCb
        ⟨200, "OK", true,
          ["data: \x7b\"status\": \"failed\", \"message\": \"X\"\x7d\n"]⟩).2 =
      Except.ok ⟨false, Json.obj [("status", Json.str "failed"), ("message", Json.str "X")]⟩
    ∧ (settingsRebuildToast
        ⟨200, "OK", true,
          ["data: \x7b\"status\": \"failed\", \"message\": \"X\"\x7d\n"]⟩).description =
      "Rebuild failed"
    ∧ ¬ (settingsRebuildToast
        ⟨200, "OK", true,
          ["data: \x7b\"status\": \"failed\", \"message\": \"X\"\x7d\n"]⟩).description = "X" :=
  ⟨rfl, rfl, by decide⟩

/-- C5 (amended): a stream ending in a failed event yields an outcome with
success false, and the settings page surfaces a destructive notification
whose text comes from the event's error field, falling back to the generic
"Rebuild failed" when that field is absent; the server-provided message
field is never consulted. -/
theorem settings_failed_toast_generic (resp : FetchResponse)
    (pre post : List String) (t : String) (j : Json)
    (hok : respOk resp = true) (hbody : resp.hasBody = true)
    (hsplit : chunkLines resp.chunks = pre ++ t :: post)
    (hpre : ∀ l ∈ pre, lineTerminal noThrowCb l = false)
    (hline : lineEvent t = some j)
    (hfail : jsGetField j "status" = Except.ok (some (Json.str "failed")))
    (herr : jsGetFieldOpt j "error" = none) :
    (rebuildVectorStoreWithProgress noThrowCb resp).2 = Except.ok ⟨false, j⟩
    ∧ settingsRebuildToast resp = ⟨"Error", "Rebuild failed", true⟩ := by
  have hterm : eventIsTerminal j = true := by
    unfold eventIsTerminal
    rw [hfail]
    rfl
  have hsucc : eventSuccess j = false := by
    unfold eventSuccess
    rw [hfail]
    rfl
  have hrun := rebuildRun_first_terminal noThrowCb resp pre post t j hok hbody hsplit
    hpre hline hterm rfl
  rw [hsucc] at hrun
  constructor
  · rw [hrun]
  · unfold settingsRebuildToast
    rw [hrun]
    simp [rebuildFailureMessage, herr, jsOrString]

theorem settings_failed_toast_generic_witness :
    (rebuildVectorStoreWithProgress noThrowCb
        ⟨200, "OK", true,
          ["data: \x7b\"status\": \"failed\", \"message\": \"X\"\x7d\n"]⟩).2 =
      Except.ok
        ⟨false, Json.obj [("status", Json.str "failed"), ("message", Json.str "X")]⟩
    ∧ settingsRebuildToast
        ⟨200, "OK", true,
          ["data: \x7b\"status\": \"failed\", \"message\": \"X\"\x7d\n"]⟩ =
      ⟨"Error", "Rebuild failed", true⟩ :=
  settings_failed_toast_generic
    ⟨200, "OK", true, ["data: \x7b\"status\": \"failed\", \"message\": \"X\"\x7d\n"]⟩
    [] [""] "data: \x7b\"status\": \"failed\", \"message\": \"X\"\x7d"
    (Json.obj [("status", Json.str "failed"), ("message", Json.str "X")])
    rfl rfl rfl (by decide) rfl rfl rfl

/-- C6: with a callback that does not throw, the delivered events are
exactly the parsed events in stream order up to and including the first
terminal one, with none reordered, dropped or duplicated; in particular,
when the progress values of the parsed events are non-decreasing, so are
the progress values seen by the callback. -/
theorem rebuild_stream_callback_order (resp : FetchResponse)
    (hok : respOk resp = true) (hbody : resp.hasBody = true)
    (hwf : ∀ l ∈ chunkLines resp.chunks, isDataLine l = true → (lineEvent l).isSome = true)
    (hmono : List.Chain' (fun a b => progLe a b = true)
      (parsedEvents (chunkLines resp.chunks))) :
    (rebuildVectorStoreWithProgress noThrowCb resp).1 =
      takeThroughTerminal (parsedEvents (chunkLines resp.chunks))
    ∧ List.Chain' (fun a b => progLe a b = true)
        ((rebuildVectorStoreWithProgress noThrowCb resp).1) := by
  have h1 : (rebuildVectorStoreWithProgress noThrowCb resp).1 =
      (procLines noThrowCb (chunkLines resp.chunks)).1 := by
    rw [rebuildRun_ok noThrowCb resp hok hbody]
  rw [h1, procLines_delivered]
  exact ⟨rfl, chain_takeThroughTerminal _ _ hmono⟩

theorem rebuild_stream_callback_order_witness :
    (rebuildVectorStoreWithProgress noThrowCb
        ⟨200, "OK", true,
          ["data: \x7b\"status\": \"processing\", \"progress\": 10\x7d\n",
           "data: \x7b\"status\": \"processing\", \"progress\": 55\x7d\n",
           "data: \x7b\"status\": \"completed\", \"progress\": 100\x7d\n"]⟩).1 =
      takeThroughTerminal (parsedEvents (chunkLines
        ["data: \x7b\"status\": \"processing\", \"progress\": 10\x7d\n",
         "data: \x7b\"status\": \"processing\", \"progress\": 55\x7d\n",
         "data: \x7b\"status\": \"completed\", \"progress\": 100\x7d\n"]))
    ∧ List.Chain' (fun a b => progLe a b = true)
        ((rebuildVectorStoreWithProgress noThrowCb
          ⟨200, "OK", true,
            ["data: \x7b\"status\": \"processing\", \"progress\": 10\x7d\n",
             "data: \x7b\"status\": \"processing\", \"progress\": 55\x7d\n",
             "data: \x7b\"status\": \"completed\", \"progress\": 100\x7d\n"]⟩).1) :=
  rebuild_stream_callback_order
    ⟨200, "OK", true,
      ["data: \x7b\"status\": \"processing\", \"progress\": 10\x7d\n",
       "data: \x7b\"status\": \"processing\", \"progress\": 55\x7d\n",
       "data: \x7b\"status\": \"completed\", \"progress\": 100\x7d\n"]⟩
    rfl rfl (by decide)
    (by
      have e : parsedEvents (chunkLines
          (⟨200, "OK", true,
            ["data: \x7b\"status\": \"processing\", \"progress\": 10\x7d\n",
             "data: \x7b\"status\": \"processing\", \"progress\": 55\x7d\n",
             "data: \x7b\"status\": \"completed\", \"progress\": 100\x7d\n"]⟩ :
              FetchResponse).chunks) =
          [Json.obj [("status", Json.str "processing"), ("progress", Json.num 10 0)],
           Json.obj [("status", Json.str "processing"), ("progress", Json.num 55 0)],
           Json.obj [("status", Json.str "completed"), ("progress", Json.num 100 0)]] := rfl
      rw [e]
      exact List.chain'_cons.2 ⟨by decide, List.chain'_cons.2 ⟨by decide,
        List.chain'_singleton _⟩⟩)

/-- C7: with filters user u1 and batch size 50, both entry points serialize
the query string exactly as user_filter=u1&batch_size=50 with no
document_filter key, and with no filters at all both request URLs carry no
query string. -/
theorem rebuild_query_string_exact :
    searchParamsToString (rebuildParams ⟨some "u1", none, some 50⟩) =
      "user_filter=u1&batch_size=50"
    ∧ searchParamsToString (rebuildStreamParams ⟨some "u1", none, some 50⟩) =
      "user_filter=u1&batch_size=50"
    ∧ (∀ p ∈ rebuildParams ⟨some "u1", none, some 50⟩, ¬ p.1 = "document_filter")
    ∧ (∀ p ∈ rebuildStreamParams ⟨some "u1", none, some 50⟩, ¬ p.1 = "document_filter")
    ∧ rebuildUrl ⟨none, none, none⟩ = "/rag/admin/vector/rebuild"
    ∧ rebuildStreamUrl ⟨none, none, none⟩ = "/rag/admin/vector/rebuild/stream" :=
  ⟨rfl, rfl, by decide, by decide, rfl, rfl⟩

/-- C8: one invocation issues exactly one request: only the head response
of the transport is consumed, whatever its status and stream, and the
remaining responses are left untouched, so any retry is a fresh invocation
by the caller. -/
theorem rebuild_single_request (cbThrows : Json → Bool) (r : FetchResponse)
    (rest : List FetchResponse) :
    (rebuildInvoke cbThrows (r :: rest)).1 = rebuildVectorStoreWithProgress cbThrows r
    ∧ (rebuildInvoke cbThrows (r :: rest)).2 = rest :=
  ⟨rfl, rfl⟩

/-- C9: an exception thrown by the progress callback is caught by the
per-line catch and swallowed: the event still counts as delivered, and when
the callback throws on the terminal failed event the terminal check is
never reached, so the run falls through to the synthesized success outcome
instead of reporting the failure. -/
theorem rebuild_callback_throw_swallowed (cbThrows : Json → Bool) (resp : FetchResponse)
    (pre post : List String) (t : String) (j : Json)
    (hok : respOk resp = true) (hbody : resp.hasBody = true)
    (hsplit : chunkLines resp.chunks = pre ++ t :: post)
    (hline : lineEvent t = some j)
    (hterm : eventIsTerminal j = true)
    (hthrow : cbThrows j = true)
    (hnt : ∀ l ∈ pre ++ post, lineTerminal cbThrows l = false) :
    (rebuildVectorStoreWithProgress cbThrows resp).2 = Except.ok fallbackOutcome
    ∧ j ∈ (rebuildVectorStoreWithProgress cbThrows resp).1 := by
  have hallnt : ∀ l ∈ pre ++ t :: post, lineTerminal cbThrows l = false := by
    intro l hl
    rcases List.mem_append.1 hl with h | h
    · exact hnt l (List.mem_append.2 (Or.inl h))
    · rcases List.mem_cons.1 h with h | h
      · subst h
        simp [lineTerminal, hline, hthrow]
      · exact hnt l (List.mem_append.2 (Or.inr h))
  have hrw := rebuildRun_ok cbThrows resp hok hbody
  rw [hsplit, procLines_nonterminal cbThrows _ hallnt] at hrw
  constructor
  · rw [hrw]
    rfl
  · rw [hrw]
    have h3 : parsedEvents (pre ++ t :: post) =
        parsedEvents pre ++ (j :: parsedEvents post) := by
      simp [parsedEvents, List.filterMap_append, List.filterMap_cons, hline]
    show j ∈ parsedEvents (pre ++ t :: post)
    rw [h3]
    exact List.mem_append.2 (Or.inr (List.mem_cons_self j (parsedEvents post)))

theorem rebuild_callback_throw_swallowed_witness :
    (rebuildVectorStoreWithProgress (fun _ => true)
        ⟨200, "OK", true,
          ["data: \x7b\"status\": \"failed\", \"message\": \"X\"\x7d\n"]⟩).2 =
      Except.ok fallbackOutcome
    ∧ Json.obj [("status", Json.str "failed"), ("message", Json.str "X")] ∈
        (rebuildVectorStoreWithProgress (fun _ => true)
          ⟨200, "OK", true,
            ["data: \x7b\"status\": \"failed\", \"message\": \"X\"\x7d\n"]⟩).1 :=
  rebuild_callback_throw_swallowed (fun _ => true)
    ⟨200, "OK", true, ["data: \x7b\"status\": \"failed\", \"message\": \"X\"\x7d\n"]⟩
    [] [""] "data: \x7b\"status\": \"failed\", \"message\": \"X\"\x7d"
    (Json.obj [("status", Json.str "failed"), ("message", Json.str "X")])
    rfl rfl rfl rfl rfl rfl (by decide)

/-- C10: lines are split within each chunk independently and no partial
line is buffered across reads, so an event line that arrives split across
two read chunks, neither of whose fragments yields a parsed data line, is
silently dropped: the run equals the run on the stream without that line,
with the event never delivered and never recognized as terminal. -/
theorem rebuild_split_line_dropped (cbThrows : Json → Bool)
    (st : Nat) (sx : String) (hb : Bool) (A B : List String)
    (f1 f2 : String) (j : Json)
    (hwhole : lineEvent (f1 ++ f2) = some j)
    (h1 : ∀ l ∈ strSplitNl f1, (lineEvent l).isNone = true)
    (h2 : ∀ l ∈ strSplitNl (f2 ++ "\n"), (lineEvent l).isNone = true) :
    rebuildVectorStoreWithProgress cbThrows ⟨st, sx, hb, A ++ f1 :: (f2 ++ "\n") :: B⟩ =
      rebuildVectorStoreWithProgress cbThrows ⟨st, sx, hb, A ++ B⟩ := by
  apply rebuildRun_chunks_congr
  rw [procChunks_eq_procLines, procChunks_eq_procLines]
  have e1 : chunkLines (A ++ f1 :: (f2 ++ "\n") :: B) =
      chunkLines A ++ (strSplitNl f1 ++ (strSplitNl (f2 ++ "\n") ++ chunkLines B)) := by
    rw [chunkLines_append]
    simp [chunkLines, List.append_assoc]
  have e2 : chunkLines (A ++ B) = chunkLines A ++ chunkLines B := chunkLines_append A B
  rw [e1, e2]
  have h1n : ∀ l ∈ strSplitNl f1, lineEvent l = none :=
    fun l hl => Option.isNone_iff_eq_none.1 (h1 l hl)
  have h2n : ∀ l ∈ strSplitNl (f2 ++ "\n"), lineEvent l = none :=
    fun l hl => Option.isNone_iff_eq_none.1 (h2 l hl)
  have inner : procLines cbThrows
      (strSplitNl f1 ++ (strSplitNl (f2 ++ "\n") ++ chunkLines B)) =
      procLines cbThrows (chunkLines B) := by
    rw [procLines_skip cbThrows _ _ h1n, procLines_skip cbThrows _ _ h2n]
  rw [procLines_congr_append cbThrows (chunkLines A) _ _ inner]

theorem rebuild_split_line_dropped_witness :
    rebuildVectorStoreWithProgress noThrowCb
        ⟨200, "OK", true,
          ["data: \x7b\"status\": \"processing\", \"progress\": 50\x7d\n",
           "data: \x7b\"status\": \"comp",
           "leted\", \"progress\": 100\x7d\n"]⟩ =
      rebuildVectorStoreWithProgress noThrowCb
        ⟨200, "OK", true,
          ["data: \x7b\"status\": \"processing\", \"progress\": 50\x7d\n"]⟩ :=
  rebuild_split_line_dropped noThrowCb 200 "OK" true
    ["data: \x7b\"status\": \"processing\", \"progress\": 50\x7d\n"] []
    "data: \x7b\"status\": \"comp" "leted\", \"progress\": 100\x7d"
    (Json.obj [("status", Json.str "completed"), ("progress", Json.num 100 0)])
    rfl (by decide) (by decide)
